import Mathlib

/-!
Verification of the btc.py federated-node management script.

We shallowly embed the script as pure Lean functions.  The external world
(filesystem, subprocess outputs, sockets) is a record of query functions
`World`; every side effect the script performs (prints, shell invocations,
file writes) is recorded as an `Action` in an output trace.  `mainRun`
mirrors the `main` function of the script: it takes the parsed command
line (`Cmd`, after argparse), the global `--no-pull` flag and a `World`,
and returns the list of performed actions together with the process exit
code (0 = fell off the end of `main`, 1 = `sys.exit(1)`).
-/

namespace Btc

/-! ### Characters and small string helpers

String literals below avoid embedded quote characters; the characters are
spliced in via their code points (39 = single quote, 34 = double quote,
92 = backslash, 9 = tab, 10 = newline, 35 = hash).
-/

def SQ : String := String.singleton (Char.ofNat 39)

def DQ : String := String.singleton (Char.ofNat 34)

def BSL : String := String.singleton (Char.ofNat 92)

def TAB : String := String.singleton (Char.ofNat 9)

def NL : String := String.singleton (Char.ofNat 10)

/-- `concatMap f l` is the concatenation of `f x` over `l` (the action
trace of a Python `for` loop whose body emits `f x`). -/
def concatMap (f : α → List β) : List α → List β
  | [] => []
  | a :: l => f a ++ concatMap f l

/-- `countBy p l` counts the elements of `l` satisfying `p`. -/
def countBy (p : α → Bool) : List α → Nat
  | [] => 0
  | a :: l => (if p a then 1 else 0) + countBy p l

/-- "".join of a list of strings. -/
def joinAll : List String → String
  | [] => ""
  | s :: r => s ++ joinAll r

/-- Kernel-computable core of Python `str.replace`: replace every
(leftmost, non-overlapping) occurrence of `pat` in the character list.
`fuel` bounds the recursion; each step consumes at least one character
when `pat` is nonempty, so `fuel = length of the subject` suffices. -/
def replChars (pat rep : List Char) : Nat → List Char → List Char
  | _, [] => []
  | 0, s => s
  | Nat.succ fuel, c :: rest =>
    if pat.isPrefixOf (c :: rest) then
      rep ++ replChars pat rep fuel (rest.drop (pat.length - 1))
    else
      c :: replChars pat rep fuel rest

/-- Python `s.replace(pat, rep)`.  The script only ever calls it with the
nonempty literal patterns ".default", "-testnet", "-data" and a double
quote; the empty-pattern behaviour of Python is therefore not modelled
(we return `s` unchanged). -/
def pyReplace (s pat rep : String) : String :=
  if pat.data = [] then s
  else String.mk (replChars pat.data rep.data s.data.length s.data)

/-- Python whitespace for `str.strip`: space, tab, newline, carriage
return, vertical tab, form feed. -/
def isPySpace (c : Char) : Bool :=
  (c == Char.ofNat 32) || (c == Char.ofNat 9) || (c == Char.ofNat 10) ||
  (c == Char.ofNat 13) || (c == Char.ofNat 11) || (c == Char.ofNat 12)

/-- Python `s.strip()` on a character list. -/
def stripChars (l : List Char) : List Char :=
  ((l.dropWhile isPySpace).reverse.dropWhile isPySpace).reverse

/-! ### Static tables of the script (src/btc.py, lines 23-76) -/

def PROJECT_NAME : String := "bitcoinprotocols"

def BTC_CONFIG_FILE : String := ".btc.config"

/-- The directory of the script; an abstract but fixed absolute path
(`SCRIPTDIR` is computed at runtime from `__file__`; every path the
script builds hangs under it, so a fixed stand-in is faithful). -/
def SCRIPTDIR : String := "/btc"

def repoHttpsUrl (r : String) : String :=
  "https://github.com/CounterpartyXCP/" ++ r ++ ".git"

def repoSshUrl (r : String) : String :=
  "git@github.com:CounterpartyXCP/" ++ r ++ ".git"

def REPOS_BASE : List String :=
  ["counterparty-lib", "counterparty-cli", "addrindexrs", "xcp-proxy", "http-addrindexrs"]

def REPOS_FULL : List String := REPOS_BASE

/-- HOST_PORTS_USED dict; argparse restricts the key to the three
profiles, an unknown key is mapped to [] (in Python it would raise). -/
def HOST_PORTS_USED (cfg : String) : List Nat :=
  if cfg = "base" then [8332, 18332, 8432, 18432, 4000, 14000, 8097, 18097, 8098, 18098]
  else if cfg = "base_extbtc" then [8432, 18432, 4000, 14000, 8097, 18097, 8098, 18098]
  else if cfg = "full" then [8332, 18332, 8432, 18432, 4000, 14000, 8097, 18097, 8098, 18098, 80, 443]
  else []

def VOLUMES_USED (cfg : String) : List String :=
  if cfg = "base" then ["bitcoin-data", "addrindexrs-data", "counterparty-data"]
  else if cfg = "base_extbtc" then ["addrindexrs-data", "counterparty-data"]
  else if cfg = "full" then ["bitcoin-data", "addrindexrs-data", "counterparty-data"]
  else []

def UPDATE_CHOICES : List String :=
  ["addrindexrs", "addrindexrs-testnet",
   "counterparty", "counterparty-testnet", "xcp-proxy", "xcp-proxy-testnet",
   "http-addrindexrs", "http-addrindexrs-testnet"]

def REPARSE_CHOICES : List String := ["counterparty", "counterparty-testnet"]

def ROLLBACK_CHOICES : List String := ["counterparty", "counterparty-testnet"]

def VALIDATE_CHOICES : List String := ["counterparty", "counterparty-testnet"]

def VACUUM_CHOICES : List String := ["counterparty", "counterparty-testnet"]

def SHELL_CHOICES : List String :=
  UPDATE_CHOICES ++ ["mongodb", "redis", "bitcoin", "bitcoin-testnet", "addrindexrs", "addrindexrs-testnet"]

def CONFIGCHECK_FILES_BASE_EXTERNAL_BITCOIN : List (String × String × String) :=
  [("addrindexrs", "addrindexrs.env.default", "addrindexrs.env"),
   ("addrindexrs", "addrindexrs.testnet.env.default", "addrindexrs.testnet.env"),
   ("counterparty", "client.conf.default", "client.conf"),
   ("counterparty", "client.testnet.conf.default", "client.testnet.conf"),
   ("counterparty", "server.conf.default", "server.conf"),
   ("counterparty", "server.testnet.conf.default", "server.testnet.conf")]

def CONFIGCHECK_FILES_BASE : List (String × String × String) :=
  [("bitcoin", "bitcoin.conf.default", "bitcoin.conf"),
   ("bitcoin", "bitcoin.testnet.conf.default", "bitcoin.testnet.conf"),
   ("addrindexrs", "addrindexrs.env.default", "addrindexrs.env"),
   ("addrindexrs", "addrindexrs.testnet.env.default", "addrindexrs.testnet.env"),
   ("counterparty", "client.conf.default", "client.conf"),
   ("counterparty", "client.testnet.conf.default", "client.testnet.conf"),
   ("counterparty", "server.conf.default", "server.conf"),
   ("counterparty", "server.testnet.conf.default", "server.testnet.conf")]

def CONFIGCHECK_FILES (cfg : String) : List (String × String × String) :=
  if cfg = "base_extbtc" then CONFIGCHECK_FILES_BASE_EXTERNAL_BITCOIN
  else if cfg = "base" then CONFIGCHECK_FILES_BASE
  else if cfg = "full" then CONFIGCHECK_FILES_BASE
  else []

/-! ### Effects and environment -/

/-- One observable side effect of the script.  Read-only subprocess
invocations (docker inspect, git symbolic-ref, logname) are modelled as
`World` queries; `readBranch` is additionally recorded in the trace since
the update claims speak about repository operations. -/
inductive Action where
  /-- `print(msg)` -/
  | print (msg : String)
  /-- `write_config`: persist the Default section with `branch`, `config` -/
  | writeSettings (branch config : String)
  /-- `os.remove(BTC_CONFIG_PATH)` -/
  | removeSettings
  /-- `run_compose_cmd(cmd)`: `sudo docker-compose -f <file> -p bitcoinprotocols <cmd>` -/
  | composeCmd (cmd : String)
  /-- `git clone -b <branch> <url> <dir>` (as the session user off Windows) -/
  | gitClone (branch url dir : String)
  /-- `git symbolic-ref --short -q HEAD` inside `dir` (a read, recorded) -/
  | readBranch (dir : String)
  /-- `git pull origin <branch>` inside `dir` -/
  | gitPull (dir branch : String)
  /-- `rm -rf <path>` of a stale `*.egg-info` directory -/
  | removeEgg (path : String)
  /-- `shutil.copy2(src, dst)` -/
  | copyFile (src dst : String)
  /-- `os.chown(path, ...)` propagating the template ownership -/
  | chownLike (path : String)
  /-- `os.mkdir(path)` -/
  | mkdirAt (path : String)
  /-- `os.symlink(target, linkpath)` -/
  | symlinkAt (target linkpath : String)
  /-- `docker exec -i -t bitcoinprotocols_<service>_1 bash -c <cmdstr>` -/
  | dockerExecCmd (service cmdstr : String)
  /-- same, but Python interpolated the argv list object itself
  (the regex-quoted single-argument branch of `exec`) -/
  | dockerExecList (service : String) (cmdlist : List String)
  /-- `docker exec -i -t bitcoinprotocols_<service>_1 bash` (interactive shell) -/
  | dockerShell (service : String)
  /-- `docker rm <container>` -/
  | dockerRm (container : String)
  /-- `docker rmi <image>` -/
  | dockerRmi (image : String)
  deriving DecidableEq

/-- The state of the outside world as observed by one run of the script;
each field models one read-only query the script makes. -/
structure World where
  /-- `os.path.exists(BTC_CONFIG_PATH)` -/
  configExists : Bool
  /-- settings file key `config` (profile), read when the file exists -/
  storedConfig : String
  /-- settings file key `branch`, read when the file exists -/
  storedBranch : String
  /-- `socket.connect_ex((host, port)) == 0` -/
  connectEx : String → Nat → Bool
  /-- `os.path.exists(path)` for all other paths -/
  pathExists : String → Bool
  /-- `os.path.lexists(path)` -/
  lexists : String → Bool
  /-- output of `docker inspect --format .State.Running bitcoinprotocols_<service>_1`;
  `none` models the CalledProcessError when the container does not exist -/
  containerInspect : String → Option String
  /-- output of `git symbolic-ref --short -q HEAD` in the given directory;
  "" models a detached HEAD -/
  branchOf : String → String
  /-- `glob.iglob(SCRIPTDIR/config/**/*.default, recursive=True)` -/
  defaultConfigGlob : List String
  /-- `glob.glob(<dir>/*.egg-info)` -/
  eggGlob : String → List String
  /-- Mountpoint from `docker volume inspect`; `none` models the
  CalledProcessError when the volume does not exist -/
  volumeMountpoint : String → Option String
  /-- `docker ps -a -q` output lines -/
  dockerContainers : List String
  /-- `docker images -q` output lines -/
  dockerImages : List String
  /-- `open(path).readlines()` (lines keep their trailing newline) -/
  fileLines : String → List String
  /-- `file_mtime(path)` rendered timestamp -/
  mtimeOf : String → String
  /-- `os.name == "nt"` -/
  isWindows : Bool

/-- The parsed command line (after argparse, which already enforced the
choices= sets and supplied defaults; the `services` fields hold `[]` when
the positional list was left empty, matching `len(args.services) == 0`). -/
inductive Cmd where
  | install (config branch : String) (useSsh : Bool) (mongodbInterface : String) (noBootstrap : Bool)
  | uninstall
  | start (services : List String)
  | stop (services : List String)
  | restart (services : List String)
  | reparse (service : String)
  | rollback (blockIndex service : String)
  | validate (service : String)
  | vacuum (service : String)
  | ps
  | tail (services : List String) (numLines : Nat)
  | logs (services : List String)
  | exec (service : String) (cmd : List String)
  | shell (service : String)
  | update (noRestart : Bool) (services : List String)
  | rebuild (services : List String) (noCache : Bool)
  | docker_clean
  | configcheck
  deriving DecidableEq

def Cmd.isInstall : Cmd → Bool
  | .install _ _ _ _ _ => true
  | _ => false

def Cmd.isDockerClean : Cmd → Bool
  | .docker_clean => true
  | _ => false

/-! ### Small observers on traces (used by the claims) -/

def Action.isPrint : Action → Bool
  | .print _ => true
  | _ => false

def Action.isClone : Action → Bool
  | .gitClone _ _ _ => true
  | _ => false

def Action.isCompose : Action → Bool
  | .composeCmd _ => true
  | _ => false

/-- A side-effecting action: anything but a `print`. -/
def sideEffecting (a : Action) : Bool := !a.isPrint

def hasSideEffect (t : List Action) : Bool := t.any sideEffecting

def hasClone (t : List Action) : Bool := t.any Action.isClone

def hasCompose (t : List Action) : Bool := t.any Action.isCompose

/-- Does action `a` pull (git pull) in directory `p`? -/
def isPullAt (p : String) : Action → Bool
  | .gitPull q _ => q == p
  | _ => false

/-- Is action `a` a copy whose destination is `f`? -/
def isCopyTo (f : String) : Action → Bool
  | .copyFile _ dst => dst == f
  | _ => false

def hasCopyTo (t : List Action) (f : String) : Bool := t.any (isCopyTo f)

/-- Whether the settings file exists after the trace `t` ran, starting
from existence state `w.configExists`. -/
def settingsFileAfter (w : World) (t : List Action) : Bool :=
  t.foldl (fun ex a =>
    match a with
    | .writeSettings _ _ => true
    | .removeSettings => false
    | _ => ex) w.configExists

/-! ### The script, function by function -/

/-- `is_port_open(port)` (lines 168-171): a bare TCP connect to
127.0.0.1 on the given port; true iff `connect_ex` returned 0. -/
def is_port_open (w : World) (port : Nat) : Bool :=
  w.connectEx "127.0.0.1" port

/-- `is_container_running(service)` (lines 197-206), as a query: `none`
when `docker inspect` failed (container does not exist; in the script
this aborts with exit 1 when `abort_on_not_exist`, realized at the call
site below), otherwise whether the inspect output was the string "true". -/
def is_container_running (w : World) (service : String) : Option Bool :=
  match w.containerInspect service with
  | none => none
  | some out => some (out == "true")

/-- The `docker_clean` branch (lines 263-274): remove every container
and image (skipping empty output lines), then `sys.exit(1)`. -/
def dockerCleanRun (w : World) : List Action × Nat :=
  ((w.dockerContainers.filter (fun c => c != "")).map Action.dockerRm ++
   (w.dockerImages.filter (fun i => i != "")).map Action.dockerRmi, 1)

def notInstalledMsg : String :=
  "config file " ++ BTC_CONFIG_FILE ++ " does not exist. Please run the " ++
  SQ ++ "install" ++ SQ ++ " command first"

def cannotInstallMsg : String :=
  "Cannot install, as it appears a configuration already exists. Please run the " ++
  SQ ++ "uninstall" ++ SQ ++ " command first"

def portFailMsg (p : Nat) : String :=
  "Cannot install, as it appears a process is already listening on host port " ++ toString p

/-- Active config path from a template path: Python
`default_config.replace(".default", "")` (lines 335-336). -/
def activeOf (dc : String) : String := pyReplace dc ".default" ""

/-- Config materialization during install (lines 334-342): for every
`*.default` under the config tree, if the active counterpart is absent,
print, copy, and (off Windows) propagate ownership.  An existing active
file is left untouched. -/
def initializeConfigs (w : World) : List Action :=
  concatMap (fun dc =>
    let ac := activeOf dc
    if w.pathExists ac then []
    else
      [Action.print ("Generating config from defaults at " ++ ac ++ " ..."),
       Action.copyFile dc ac] ++
      (if w.isWindows then [] else [Action.chownLike ac]))
    w.defaultConfigGlob

/-- Volume symlink creation during install (lines 344-356). -/
def symlinkActs (w : World) (cfg : String) : List Action :=
  (if w.pathExists (SCRIPTDIR ++ "/data") then [] else [Action.mkdirAt (SCRIPTDIR ++ "/data")]) ++
  concatMap (fun v =>
    let sp := SCRIPTDIR ++ "/data/" ++ pyReplace v "-data" ""
    match w.volumeMountpoint (PROJECT_NAME ++ "_" ++ v) with
    | none => []
    | some mp =>
      if w.lexists sp then []
      else [Action.symlinkAt mp sp,
            Action.print ("For convenience, symlinking " ++ mp ++ " to " ++ sp)])
    (VOLUMES_USED cfg)

/-- The install branch after the already-installed check (lines 309-359):
port pre-flight, clones, image pull, config materialization, volume
symlinks, `up -d`. -/
def installRun (w : World) (noPull : Bool) (cfg br : String) (useSsh : Bool) : List Action × Nat :=
  match (HOST_PORTS_USED cfg).find? (fun p => is_port_open w p) with
  | some p => ([Action.print (portFailMsg p)], 1)
  | none =>
    let repos := if cfg = "base" then REPOS_BASE else REPOS_FULL
    let cloneActs := concatMap (fun repo =>
      let url := if useSsh then repoSshUrl repo else repoHttpsUrl repo
      let dir := SCRIPTDIR ++ "/src/" ++ repo
      if w.pathExists dir then [] else [Action.gitClone br url dir]) repos
    let pullActs :=
      if noPull then [Action.print "skipping docker pull command"]
      else [Action.composeCmd "pull --ignore-pull-failures"]
    let symActs := if w.isWindows then [] else symlinkActs w cfg
    (cloneActs ++ pullActs ++ initializeConfigs w ++ symActs ++ [Action.composeCmd "up -d"], 0)

def containerNotExistMsg (s : String) : String :=
  "Container " ++ s ++ " doesn" ++ SQ ++ "t seem to exist" ++ SQ

def shellTransientMsg : String :=
  "Container is not running -- creating a transient container with a " ++
  SQ ++ "bash" ++ SQ ++ " shell entrypoint..."

/-- The `shell` branch (lines 393-399). -/
def shellRun (w : World) (s : String) : List Action × Nat :=
  match is_container_running w s with
  | none => ([Action.print (containerNotExistMsg s)], 1)
  | some true => ([Action.dockerShell s], 0)
  | some false =>
    ([Action.print shellTransientMsg,
      Action.composeCmd ("run --no-deps --rm --entrypoint bash " ++ s)], 0)

def isQuoteChar (c : Char) : Bool :=
  (c == Char.ofNat 39) || (c == Char.ofNat 34)

/-- `re.match("[quote].*?[quote]", s)` as a Boolean: the string starts
with a quote character and another quote character occurs later, before
any newline (dot does not match newlines). -/
def execQuoteMatch (s : String) : Bool :=
  match s.data with
  | [] => false
  | c :: rest => isQuoteChar c && (rest.takeWhile (fun d => d != Char.ofNat 10)).any isQuoteChar

/-- The `exec` branch (lines 387-392). -/
def execRun (s : String) (cmdArgs : List String) : List Action × Nat :=
  if cmdArgs.length == 1 && execQuoteMatch (cmdArgs.headD "") then
    ([Action.dockerExecList s cmdArgs], 0)
  else
    ([Action.dockerExecCmd s
        (DQ ++ pyReplace (String.intercalate " " cmdArgs) DQ (BSL ++ DQ) ++ DQ)], 0)

/-! ### config_check (lines 216-253) -/

def cfgPath (d f : String) : String := SCRIPTDIR ++ "/config/" ++ d ++ "/" ++ f

/-- The `linejunk_filter` lambda (line 239): keep a line iff its strip is
nonempty and does not start with a hash. -/
def linejunkKeep (x : String) : Bool :=
  match stripChars x.data with
  | [] => false
  | c :: _ => c != Char.ofNat 35

def stripLines (ls : List String) : List String := ls.filter linejunkKeep

/-- A simplified line diff with the emptiness behaviour of
`difflib.unified_diff` (a Python-stdlib collaborator): the sequence
matcher produces no grouped opcodes, hence no output at all, exactly
when the two line sequences are equal; otherwise at least one
deleted/inserted line is emitted. -/
def diffBody : List String → List String → List String
  | [], ys => ys.map (fun y => "+" ++ y)
  | x :: xs, ys =>
    match ys with
    | [] => ("-" ++ x) :: diffBody xs []
    | y :: ys2 =>
      if x = y then
        let r := diffBody xs ys2
        if r = [] then [] else (" " ++ x) :: r
      else ("-" ++ x) :: ("+" ++ y) :: diffBody xs ys2

/-- `"".join(difflib.unified_diff(a, b, fromfile, tofile, fromdate,
todate, n=3))`: empty when there are no differences, otherwise the two
header lines followed by the diff body. -/
def unifiedDiffStr (fromfile tofile fromdate todate : String) (a b : List String) : String :=
  let body := diffBody a b
  if body = [] then ""
  else joinAll (("--- " ++ fromfile ++ TAB ++ fromdate ++ NL) ::
                ("+++ " ++ tofile ++ TAB ++ todate ++ NL) :: body)

def okReport (d tf : String) : Action := Action.print (d ++ "/" ++ tf ++ ": OK")

/-- One iteration of the `config_check` loop (lines 221-251): missing
template or active file is reported and skipped; otherwise both files
are read, comment/blank lines stripped, and either the diff or an OK
line is printed.  `file_mtime` raises FileNotFoundError exactly when the
path does not exist. -/
def configCheckPair (w : World) (t : String × String × String) : List Action :=
  let fp := cfgPath t.1 t.2.1
  let tp := cfgPath t.1 t.2.2
  if !w.pathExists fp then [Action.print ("Config file not found at " ++ fp)]
  else if !w.pathExists tp then [Action.print ("Config file not found at " ++ tp)]
  else
    let fromlines := stripLines (w.fileLines fp)
    let tolines := stripLines (w.fileLines tp)
    let ds := unifiedDiffStr t.2.1 t.2.2 (w.mtimeOf fp) (w.mtimeOf tp) fromlines tolines
    if ds != "" then
      [Action.print ("Found these differences in the file " ++ tp ++ ":" ++ NL),
       Action.print ds]
    else [okReport t.1 t.2.2]

/-- `config_check(build_config)` (lines 220-253). -/
def config_check (w : World) (build_config : String) : List Action :=
  concatMap (configCheckPair w) (CONFIGCHECK_FILES build_config)

/-! ### The update branch (lines 400-445) -/

/-- `service.replace("-testnet", "")` (line 413). -/
def baseOfService (s : String) : String := pyReplace s "-testnet" ""

/-- The four base services reachable from UPDATE_CHOICES. -/
def B4 : List String := ["addrindexrs", "counterparty", "xcp-proxy", "http-addrindexrs"]

/-- The repository directories of a base service (lines 416-419):
`counterparty` is the split library/CLI pair, every other base maps to a
single directory named after itself.  (In the script the counterparty
case stores absolute paths which `os.path.join(SCRIPTDIR, "src", d)`
returns unchanged, so both cases reduce to `SCRIPTDIR/src/<name>`.) -/
def dirsOf (b : String) : List String :=
  if b = "counterparty" then ["counterparty-lib", "counterparty-cli"] else [b]

def pathOfDir (d : String) : String := SCRIPTDIR ++ "/src/" ++ d

def pathsOf (b : String) : List String := (dirsOf b).map pathOfDir

/-- Stale egg cleanup after a pull (lines 434-441). -/
def eggActions (w : World) (base path : String) : List Action :=
  if base = "counterparty" ∨ base = "armory-utxsvr" then
    concatMap (fun p => [Action.print ("Removing egg path " ++ p), Action.removeEgg p])
      (w.eggGlob path)
  else []

def detachedMsg : String := "Unknown service git branch name, or repo in detached state"

/-- The inner `for service_dir in service_dirs` loop (lines 420-441).
Returns the emitted actions and `some 1` when the detached-HEAD check
called `sys.exit(1)` (aborting the whole command). -/
def updateDirs (w : World) (base : String) : List String → List Action × Option Nat
  | [] => ([], none)
  | d :: rest =>
    let path := pathOfDir d
    if w.pathExists path then
      let br := w.branchOf path
      if br = "" then
        ([Action.readBranch path, Action.print detachedMsg], some 1)
      else
        let r := updateDirs w base rest
        ([Action.readBranch path, Action.gitPull path br] ++ eggActions w base path ++ r.1, r.2)
    else updateDirs w base rest

def restartActs (noRestart : Bool) (s : String) : List Action :=
  if noRestart then [] else [Action.composeCmd ("restart " ++ s)]

/-- The `while services_to_update` loop (lines 409-445): the second
argument is `git_has_updated`; a base service already there is not
re-updated, but the per-service restart still runs. -/
def updateLoop (w : World) (noRestart : Bool) : List String → List String → List Action × Option Nat
  | [], _ => ([], none)
  | s :: rest, ghu =>
    let base := baseOfService s
    if base ∈ ghu then
      let r := updateLoop w noRestart rest ghu
      (restartActs noRestart s ++ r.1, r.2)
    else
      let d := updateDirs w base (dirsOf base)
      match d.2 with
      | some c => (d.1, some c)
      | none =>
        let r := updateLoop w noRestart rest (ghu ++ [base])
        (d.1 ++ restartActs noRestart s ++ r.1, r.2)

/-- First requested service outside the update allow-list, if any
(the validation loop of lines 402-406 exits at the first offender). -/
def firstInvalid (svcs : List String) : Option String :=
  svcs.find? (fun s => decide (s ∉ UPDATE_CHOICES))

/-- The `update` branch (lines 400-445).  A `services` value of `[""]`
(an explicitly empty string argument) skips validation, mirroring the
`args.services != [""]` guard; an absent list is `[]`. -/
def updateRun (w : World) (noRestart : Bool) (svcs : List String) : List Action × Nat :=
  match (if svcs = [""] then none else firstInvalid svcs) with
  | some bad => ([Action.print ("Invalid service: " ++ bad)], 1)
  | none =>
    let stu := if svcs = [] then UPDATE_CHOICES else svcs
    let r := updateLoop w noRestart stu []
    (r.1, match r.2 with | some c => c | none => 0)

/-- The `rebuild` branch (lines 448-457). -/
def rebuildRun (noPull : Bool) (svcs : List String) (noCache : Bool) : List Action × Nat :=
  ((if noPull then [Action.print "skipping docker pull command"]
    else [Action.composeCmd ("pull --ignore-pull-failures " ++ String.intercalate " " svcs)]) ++
   (if noCache then [Action.composeCmd ("build --no-cache " ++ String.intercalate " " svcs)] else []) ++
   [Action.composeCmd ("up -d --build --force-recreate --no-deps " ++ String.intercalate " " svcs)], 0)

/-- `main()` (lines 255-457) after `setup_env` and argparse: the
`docker_clean` escape hatch runs first; then the settings-file gate;
then the per-command dispatch.  Environment-variable exports (release
tag, hostname, mongodb interface, bootstrap flag) are process-local and
not modelled as actions. -/
def mainRun (w : World) (noPull : Bool) (c : Cmd) : List Action × Nat :=
  if c.isDockerClean then dockerCleanRun w
  else if ¬w.configExists ∧ ¬c.isInstall then ([Action.print notInstalledMsg], 1)
  else
    match c with
    | .install cfg br ssh _ _ =>
      if w.configExists then ([Action.print cannotInstallMsg], 1)
      else
        let r := installRun w noPull cfg br ssh
        (Action.writeSettings br cfg :: r.1, r.2)
    | .uninstall => ([Action.composeCmd "down", Action.removeSettings], 0)
    | .start svcs => ([Action.composeCmd ("start " ++ String.intercalate " " svcs)], 0)
    | .stop svcs => ([Action.composeCmd ("stop " ++ String.intercalate " " svcs)], 0)
    | .restart svcs => ([Action.composeCmd ("restart " ++ String.intercalate " " svcs)], 0)
    | .reparse s =>
      ([Action.composeCmd ("stop " ++ s), Action.composeCmd ("run -e COMMAND=reparse " ++ s)], 0)
    | .rollback b s =>
      ([Action.composeCmd ("stop " ++ s),
        Action.composeCmd ("run -e COMMAND=" ++ SQ ++ "rollback " ++ b ++ SQ ++ " " ++ s)], 0)
    | .validate s =>
      ([Action.composeCmd ("stop " ++ s), Action.composeCmd ("run -e COMMAND=checkdb " ++ s)], 0)
    | .vacuum s =>
      ([Action.composeCmd ("stop " ++ s), Action.composeCmd ("run -e COMMAND=vacuum " ++ s)], 0)
    | .tail svcs n =>
      ([Action.composeCmd ("logs -f --tail=" ++ toString n ++ " " ++ String.intercalate " " svcs)], 0)
    | .logs svcs => ([Action.composeCmd ("logs " ++ String.intercalate " " svcs)], 0)
    | .ps => ([Action.composeCmd "ps"], 0)
    | .exec s cmdArgs => execRun s cmdArgs
    | .shell s => shellRun w s
    | .update nr svcs => updateRun w nr svcs
    | .rebuild svcs noCache => rebuildRun noPull svcs noCache
    | .docker_clean => dockerCleanRun w
    | .configcheck => (config_check w w.storedConfig, 0)

/-! ### Distinctness of repository paths (used by the update analysis) -/

/-- Boolean form of "the directories in the list have pairwise distinct
repository paths". -/
def distinctPathsB : List String → Bool
  | [] => true
  | d :: rest => rest.all (fun d2 => pathOfDir d != pathOfDir d2) && distinctPathsB rest

/-! ### Concrete worlds used as witnesses and counterexamples -/

/-- An uninstalled machine with nothing present. -/
def wEmpty : World := {
  configExists := false
  storedConfig := ""
  storedBranch := ""
  connectEx := fun _ _ => false
  pathExists := fun _ => false
  lexists := fun _ => false
  containerInspect := fun _ => none
  branchOf := fun _ => ""
  defaultConfigGlob := []
  eggGlob := fun _ => []
  volumeMountpoint := fun _ => none
  dockerContainers := []
  dockerImages := []
  fileLines := fun _ => []
  mtimeOf := fun _ => ""
  isWindows := false
}

/-- An installed machine (settings file present, base profile, master). -/
def wInstalled : World := { wEmpty with
  configExists := true
  storedConfig := "base"
  storedBranch := "master"
}

/-- Uninstalled, with one docker container present. -/
def wDockerClean : World := { wEmpty with
  dockerContainers := ["c1"]
}

/-- Uninstalled, with a listener on loopback port 8332 only. -/
def wBusyPort : World := { wEmpty with
  connectEx := fun h p => h == "127.0.0.1" && p == 8332
}

/-- Installed, with both counterparty repositories checked out on a
named branch. -/
def wRepos : World := { wInstalled with
  pathExists := fun s => s == pathOfDir "counterparty-lib" || s == pathOfDir "counterparty-cli"
  branchOf := fun _ => "master"
}

/-- Installed, with the bitcoin config pair present; the active file
differs from the template only by a comment line and a blank line. -/
def wConfigs : World := { wInstalled with
  pathExists := fun s =>
    (s == cfgPath "bitcoin" "bitcoin.conf.default") || (s == cfgPath "bitcoin" "bitcoin.conf")
  fileLines := fun s =>
    if s == cfgPath "bitcoin" "bitcoin.conf.default" then
      ["# default comment" ++ NL, "rpcport=8332" ++ NL]
    else if s == cfgPath "bitcoin" "bitcoin.conf" then
      ["rpcport=8332" ++ NL, NL]
    else []
  mtimeOf := fun _ => "2024-01-01T00:00:00+00:00"
}

/-- Two templates found by the glob; the bitcoin active config already
exists, the counterparty one does not. -/
def wTemplates : World := { wEmpty with
  defaultConfigGlob :=
    ["/btc/config/counterparty/server.conf.default", "/btc/config/bitcoin/bitcoin.conf.default"]
  pathExists := fun s => s == "/btc/config/bitcoin/bitcoin.conf"
}

/-- Installed, with the counterparty container existing but stopped. -/
def wShellDown : World := { wInstalled with
  containerInspect := fun s => if s == "counterparty" then some "false" else none
}

/-- Installed, with the counterparty container running. -/
def wShellUp : World := { wInstalled with
  containerInspect := fun s => if s == "counterparty" then some "true" else none
}

/-! ### Generic list lemmas for the trace analysis -/

theorem countBy_append (p : α → Bool) (l m : List α) :
    countBy p (l ++ m) = countBy p l + countBy p m := by
  induction l with
  | nil => simp [countBy]
  | cons a l ih => simp [countBy, ih]; omega

theorem countBy_zero_of (p : α → Bool) : ∀ l : List α, (∀ a ∈ l, p a = false) → countBy p l = 0 := by
  intro l
  induction l with
  | nil => intro _; simp [countBy]
  | cons a l ih =>
    intro h
    simp [countBy, h a (List.mem_cons_self a l),
      ih fun b hb => h b (List.mem_cons_of_mem a hb)]

theorem exists_of_countBy_pos (p : α → Bool) :
    ∀ l : List α, 0 < countBy p l → ∃ a ∈ l, p a = true := by
  intro l
  induction l with
  | nil => intro h; simp [countBy] at h
  | cons a l ih =>
    intro h
    by_cases hp : p a = true
    · exact ⟨a, List.mem_cons_self a l, hp⟩
    · have he : countBy p (a :: l) = countBy p l := by simp [countBy, hp]
      rw [he] at h
      obtain ⟨b, hb, hpb⟩ := ih h
      exact ⟨b, List.mem_cons_of_mem a hb, hpb⟩

theorem countBy_le_countBy (p q : α → Bool) :
    ∀ l : List α, (∀ a ∈ l, p a = true → q a = true) → countBy p l ≤ countBy q l := by
  intro l
  induction l with
  | nil => intro _; simp [countBy]
  | cons a l ih =>
    intro h
    have hl := ih fun b hb => h b (List.mem_cons_of_mem a hb)
    by_cases hp : p a = true
    · have hq := h a (List.mem_cons_self a l) hp
      simp [countBy, hp, hq]; omega
    · have hp0 : (if p a = true then 1 else 0) = 0 := by simp [hp]
      simp only [countBy, hp0, Nat.zero_add]
      exact le_trans hl (Nat.le_add_left _ _)

theorem mem_concatMap (f : α → List β) (b : β) :
    ∀ l : List α, b ∈ concatMap f l ↔ ∃ a ∈ l, b ∈ f a := by
  intro l
  induction l with
  | nil => simp [concatMap]
  | cons a l ih =>
    simp only [concatMap, List.mem_append, ih, List.mem_cons]
    constructor
    · rintro (h | ⟨x, hx, hbx⟩)
      · exact ⟨a, Or.inl rfl, h⟩
      · exact ⟨x, Or.inr hx, hbx⟩
    · rintro ⟨x, hx, hbx⟩
      rcases hx with rfl | hx
      · exact Or.inl hbx
      · exact Or.inr ⟨x, hx, hbx⟩

theorem any_false_of (p : α → Bool) :
    ∀ l : List α, (∀ a ∈ l, p a = false) → l.any p = false := by
  intro l
  induction l with
  | nil => intro _; simp
  | cons a l ih =>
    intro h
    simp [List.any_cons, h a (List.mem_cons_self a l),
      ih fun b hb => h b (List.mem_cons_of_mem a hb)]

theorem find?_some_mem {p : α → Bool} :
    ∀ {l : List α} {a : α}, l.find? p = some a → a ∈ l ∧ p a = true := by
  intro l
  induction l with
  | nil => intro a h; exact absurd h (by simp)
  | cons x l ih =>
    intro a h
    cases hpx : p x with
    | true =>
      have hxa : x = a := by simpa [List.find?, hpx] using h
      subst hxa
      exact ⟨List.mem_cons_self x l, hpx⟩
    | false =>
      have h2 : l.find? p = some a := by simpa [List.find?, hpx] using h
      obtain ⟨hm, hp2⟩ := ih h2
      exact ⟨List.mem_cons_of_mem x hm, hp2⟩

theorem find?_none_all {p : α → Bool} :
    ∀ {l : List α}, l.find? p = none → ∀ a ∈ l, p a = false := by
  intro l
  induction l with
  | nil => intro _ a ha; exact absurd ha (List.not_mem_nil a)
  | cons x l ih =>
    intro h a ha
    cases hpx : p x with
    | true => simp [List.find?, hpx] at h
    | false =>
      have h2 : l.find? p = none := by simpa [List.find?, hpx] using h
      rcases List.mem_cons.mp ha with rfl | hm
      · exact hpx
      · exact ih h2 a hm

theorem find?_isSome_of {p : α → Bool} :
    ∀ {l : List α} {a : α}, a ∈ l → p a = true → ∃ b, l.find? p = some b := by
  intro l
  induction l with
  | nil => intro a ha; exact absurd ha (List.not_mem_nil a)
  | cons x l ih =>
    intro a ha hpa
    cases hpx : p x with
    | true => exact ⟨x, by simp [List.find?, hpx]⟩
    | false =>
      rcases List.mem_cons.mp ha with rfl | hm
      · rw [hpx] at hpa; cases hpa
      · obtain ⟨b, hb⟩ := ih hm hpa
        exact ⟨b, by simp [List.find?, hpx, hb]⟩

/-! ### Diff emptiness -/

theorem diffBody_nil_iff : ∀ a b : List String, diffBody a b = [] ↔ a = b := by
  intro a
  induction a with
  | nil =>
    intro b
    cases b with
    | nil => simp [diffBody]
    | cons y ys => simp [diffBody]
  | cons x xs ih =>
    intro b
    cases b with
    | nil => simp [diffBody]
    | cons y ys =>
      by_cases hxy : x = y
      · subst hxy
        constructor
        · intro h
          simp only [diffBody, if_pos rfl] at h
          by_cases hr : diffBody xs ys = []
          · rw [(ih ys).mp hr]
          · rw [if_neg hr] at h
            exact absurd h (by simp)
        · intro h
          have hxs : xs = ys := by injection h
          subst hxs
          have hr : diffBody xs xs = [] := (ih xs).mpr rfl
          simp [diffBody, hr]
      · constructor
        · intro h
          simp [diffBody, hxy] at h
        · intro h
          have : x = y := by injection h
          exact absurd this hxy

theorem str_data_append (a b : String) : (a ++ b).data = a.data ++ b.data := rfl

theorem joinAll_cons_ne_empty (s : String) (r : List String) (h : s.data ≠ []) :
    joinAll (s :: r) ≠ "" := by
  intro he
  have hd : (joinAll (s :: r)).data = [] := by rw [he]
  rw [show joinAll (s :: r) = s ++ joinAll r from rfl, str_data_append] at hd
  exact h (List.append_eq_nil.mp hd).1

theorem unifiedDiffStr_eq_empty_iff (ff tf fd td : String) (a b : List String) :
    unifiedDiffStr ff tf fd td a b = "" ↔ a = b := by
  constructor
  · intro h
    by_contra hne
    have hbody : diffBody a b ≠ [] := fun hb => hne ((diffBody_nil_iff a b).mp hb)
    rw [unifiedDiffStr, if_neg hbody] at h
    have hdat : ("--- " ++ ff ++ TAB ++ fd ++ NL).data ≠ [] := by
      rw [str_data_append]
      intro hd
      have h2 := (List.append_eq_nil.mp hd).1
      rw [str_data_append] at h2
      have h3 := (List.append_eq_nil.mp h2).1
      rw [str_data_append] at h3
      have h4 := (List.append_eq_nil.mp h3).1
      rw [str_data_append] at h4
      exact absurd (List.append_eq_nil.mp h4).1 (by simp)
    exact joinAll_cons_ne_empty _ _ hdat h
  · intro h
    subst h
    rw [unifiedDiffStr, if_pos ((diffBody_nil_iff a a).mpr rfl)]

/-! ### Facts about the update tables (checked by evaluation) -/

theorem base_of_update_choices : ∀ s ∈ UPDATE_CHOICES, baseOfService s ∈ B4 := by decide

theorem dirsOf_distinct : ∀ b ∈ B4, distinctPathsB (dirsOf b) = true := by decide

theorem pathsOf_disjoint :
    ∀ b1 ∈ B4, ∀ b2 ∈ B4, b1 ≠ b2 → ∀ q ∈ pathsOf b1, q ∉ pathsOf b2 := by decide

/-! ### Counting git pulls in the update loop -/

theorem countBy_eggActions (w : World) (p b path : String) :
    countBy (isPullAt p) (eggActions w b path) = 0 := by
  apply countBy_zero_of
  intro a ha
  rw [eggActions] at ha
  by_cases hb : b = "counterparty" ∨ b = "armory-utxsvr"
  · rw [if_pos hb] at ha
    obtain ⟨q, _, haq⟩ := (mem_concatMap _ _ _).mp ha
    rcases List.mem_cons.mp haq with rfl | haq2
    · rfl
    · rcases List.mem_cons.mp haq2 with rfl | haq3
      · rfl
      · exact absurd haq3 (List.not_mem_nil a)
  · rw [if_neg hb] at ha
    exact absurd ha (List.not_mem_nil a)

theorem countBy_restartActs (p : String) (nr : Bool) (s : String) :
    countBy (isPullAt p) (restartActs nr s) = 0 := by
  cases nr <;> simp [restartActs, countBy, isPullAt]

theorem updateDirs_pull_count (w : World) (b p : String) :
    ∀ dirs : List String, distinctPathsB dirs = true →
      countBy (isPullAt p) (updateDirs w b dirs).1 ≤ 1 ∧
      (0 < countBy (isPullAt p) (updateDirs w b dirs).1 → ∃ d ∈ dirs, p = pathOfDir d) := by
  intro dirs
  induction dirs with
  | nil => intro _; simp [updateDirs, countBy]
  | cons d rest ih =>
    intro hdist
    simp only [distinctPathsB, Bool.and_eq_true, List.all_eq_true] at hdist
    obtain ⟨hhead, htail⟩ := hdist
    have hd1 : ∀ d2 ∈ rest, pathOfDir d ≠ pathOfDir d2 := by
      intro d2 hd2
      simpa [bne_iff_ne] using hhead d2 hd2
    have IH := ih htail
    by_cases hex : w.pathExists (pathOfDir d) = true
    · by_cases hbr : w.branchOf (pathOfDir d) = ""
      · constructor
        · simp [updateDirs, hex, hbr, countBy, isPullAt]
        · intro hpos
          simp [updateDirs, hex, hbr, countBy, isPullAt] at hpos
      · have htr : (updateDirs w b (d :: rest)).1 =
            Action.readBranch (pathOfDir d) ::
            Action.gitPull (pathOfDir d) (w.branchOf (pathOfDir d)) ::
            (eggActions w b (pathOfDir d) ++ (updateDirs w b rest).1) := by
          simp [updateDirs, hex, hbr]
        have hc : countBy (isPullAt p) (updateDirs w b (d :: rest)).1 =
            (if (pathOfDir d == p) = true then 1 else 0) +
              countBy (isPullAt p) (updateDirs w b rest).1 := by
          rw [htr]
          simp [countBy, isPullAt, countBy_append, countBy_eggActions]
        by_cases hpd : pathOfDir d = p
        · have hrest0 : countBy (isPullAt p) (updateDirs w b rest).1 = 0 := by
            by_contra hne
            obtain ⟨d2, hd2, hpd2⟩ := IH.2 (Nat.pos_of_ne_zero hne)
            exact hd1 d2 hd2 (by rw [hpd, hpd2])
          have hbeq : (pathOfDir d == p) = true := by simp [hpd]
          constructor
          · rw [hc]
            simp [hbeq, hrest0]
          · intro _
            exact ⟨d, List.mem_cons_self d rest, hpd.symm⟩
        · have hbeq : (pathOfDir d == p) = false := by simp [hpd]
          constructor
          · rw [hc]
            simpa [hbeq] using IH.1
          · intro hpos
            rw [hc] at hpos
            simp [hbeq] at hpos
            obtain ⟨d2, hd2, h2⟩ := IH.2 hpos
            exact ⟨d2, List.mem_cons_of_mem d hd2, h2⟩
    · have hex2 : w.pathExists (pathOfDir d) = false := by
        cases hw : w.pathExists (pathOfDir d)
        · rfl
        · exact absurd hw hex
      constructor
      · simpa [updateDirs, hex2] using IH.1
      · intro hpos
        have hpos2 : 0 < countBy (isPullAt p) (updateDirs w b rest).1 := by
          simpa [updateDirs, hex2] using hpos
        obtain ⟨d2, hd2, h2⟩ := IH.2 hpos2
        exact ⟨d2, List.mem_cons_of_mem d hd2, h2⟩

theorem updateLoop_pull_count (w : World) (nr : Bool) :
    ∀ svcs ghu : List String, (∀ s ∈ svcs, baseOfService s ∈ B4) →
      (∀ p, countBy (isPullAt p) (updateLoop w nr svcs ghu).1 ≤ 1) ∧
      (∀ b ∈ B4, b ∈ ghu → ∀ p ∈ pathsOf b,
        countBy (isPullAt p) (updateLoop w nr svcs ghu).1 = 0) := by
  intro svcs
  induction svcs with
  | nil => intro ghu _; simp [updateLoop, countBy]
  | cons s rest ih =>
    intro ghu hv
    have hB : baseOfService s ∈ B4 := hv s (List.mem_cons_self s rest)
    have hvr : ∀ x ∈ rest, baseOfService x ∈ B4 :=
      fun x hx => hv x (List.mem_cons_of_mem s hx)
    have L1 := fun p => updateDirs_pull_count w (baseOfService s) p
      (dirsOf (baseOfService s)) (dirsOf_distinct (baseOfService s) hB)
    by_cases hmem : baseOfService s ∈ ghu
    · have htr : (updateLoop w nr (s :: rest) ghu).1 =
          restartActs nr s ++ (updateLoop w nr rest ghu).1 := by
        simp [updateLoop, hmem]
      have IH := ih ghu hvr
      constructor
      · intro p
        rw [htr, countBy_append, countBy_restartActs]
        simpa using IH.1 p
      · intro b hb hbg p hp
        rw [htr, countBy_append, countBy_restartActs]
        simpa using IH.2 b hb hbg p hp
    · cases hd2 : (updateDirs w (baseOfService s) (dirsOf (baseOfService s))).2 with
      | some c =>
        have htr : (updateLoop w nr (s :: rest) ghu).1 =
            (updateDirs w (baseOfService s) (dirsOf (baseOfService s))).1 := by
          simp [updateLoop, hmem, hd2]
        constructor
        · intro p
          rw [htr]
          exact (L1 p).1
        · intro b hb hbg p hp
          rw [htr]
          by_contra hne
          obtain ⟨d2, hd2m, hpd2⟩ := (L1 p).2 (Nat.pos_of_ne_zero hne)
          have hpmem : p ∈ pathsOf (baseOfService s) :=
            List.mem_map.mpr ⟨d2, hd2m, hpd2.symm⟩
          have hneq : b ≠ baseOfService s := fun he => hmem (he ▸ hbg)
          exact pathsOf_disjoint b hb (baseOfService s) hB hneq p hp hpmem
      | none =>
        have htr : (updateLoop w nr (s :: rest) ghu).1 =
            (updateDirs w (baseOfService s) (dirsOf (baseOfService s))).1 ++
              restartActs nr s ++
              (updateLoop w nr rest (ghu ++ [baseOfService s])).1 := by
          simp [updateLoop, hmem, hd2]
        have IH := ih (ghu ++ [baseOfService s]) hvr
        have hbg2 : baseOfService s ∈ ghu ++ [baseOfService s] :=
          List.mem_append_right ghu (List.mem_cons_self _ _)
        constructor
        · intro p
          rw [htr, countBy_append, countBy_append, countBy_restartActs]
          by_cases hpos :
              0 < countBy (isPullAt p)
                (updateDirs w (baseOfService s) (dirsOf (baseOfService s))).1
          · obtain ⟨d2, hd2m, hpd2⟩ := (L1 p).2 hpos
            have hpmem : p ∈ pathsOf (baseOfService s) :=
              List.mem_map.mpr ⟨d2, hd2m, hpd2.symm⟩
            have hr0 := IH.2 (baseOfService s) hB hbg2 p hpmem
            have hle := (L1 p).1
            omega
          · have hz := Nat.eq_zero_of_not_pos hpos
            have hr1 := IH.1 p
            omega
        · intro b hb hbg p hp
          rw [htr, countBy_append, countBy_append, countBy_restartActs]
          have hzD : countBy (isPullAt p)
              (updateDirs w (baseOfService s) (dirsOf (baseOfService s))).1 = 0 := by
            by_contra hne
            obtain ⟨d2, hd2m, hpd2⟩ := (L1 p).2 (Nat.pos_of_ne_zero hne)
            have hpmem : p ∈ pathsOf (baseOfService s) :=
              List.mem_map.mpr ⟨d2, hd2m, hpd2.symm⟩
            have hneq : b ≠ baseOfService s := fun he => hmem (he ▸ hbg)
            exact pathsOf_disjoint b hb (baseOfService s) hB hneq p hp hpmem
          have hzr := IH.2 b hb (List.mem_append_left _ hbg) p hp
          omega

theorem updateRun_pull_count (w : World) (nr : Bool) (svcs : List String) (p : String)
    (hv : ∀ s ∈ svcs, s ∈ UPDATE_CHOICES) :
    countBy (isPullAt p) (updateRun w nr svcs).1 ≤ 1 := by
  cases hbad : (if svcs = [""] then none else firstInvalid svcs) with
  | some bad => simp [updateRun, hbad, countBy, isPullAt]
  | none =>
    have hv2 : ∀ s ∈ (if svcs = [] then UPDATE_CHOICES else svcs), baseOfService s ∈ B4 := by
      by_cases hemp : svcs = []
      · rw [if_pos hemp]; exact base_of_update_choices
      · rw [if_neg hemp]; exact fun s hs => base_of_update_choices s (hv s hs)
    have hlc := (updateLoop_pull_count w nr
      (if svcs = [] then UPDATE_CHOICES else svcs) [] hv2).1 p
    simpa [updateRun, hbad] using hlc

theorem configCheckPair_all_print (w : World) (t : String × String × String) :
    ∀ a ∈ configCheckPair w t, a.isPrint = true := by
  intro a ha
  simp only [configCheckPair] at ha
  split at ha
  · rcases List.mem_cons.mp ha with rfl | ha2
    · rfl
    · exact absurd ha2 (List.not_mem_nil a)
  · split at ha
    · rcases List.mem_cons.mp ha with rfl | ha2
      · rfl
      · exact absurd ha2 (List.not_mem_nil a)
    · split at ha
      · rcases List.mem_cons.mp ha with rfl | ha2
        · rfl
        · rcases List.mem_cons.mp ha2 with rfl | ha3
          · rfl
          · exact absurd ha3 (List.not_mem_nil a)
      · rcases List.mem_cons.mp ha with rfl | ha2
        · rfl
        · exact absurd ha2 (List.not_mem_nil a)

/-! ### The claims -/

/-- Claim C1, amended: every verb other than `install` and `docker_clean`,
run while the settings file `.btc.config` is absent, prints exactly the
precondition message directing the operator to run `install` first, exits
with code 1, and performs no side-effecting action.  (`docker_clean` is
excluded: it runs before the settings-file gate, performs container and
image removals, and always exits 1.) -/
theorem c1_theorem (w : World) (nP : Bool) (c : Cmd)
    (h1 : w.configExists = false) (h2 : c.isInstall = false) (h3 : c.isDockerClean = false) :
    mainRun w nP c = ([Action.print notInstalledMsg], 1) := by
  simp [mainRun, h1, h2, h3]

/-- Witness for C1: the `ps` verb on an uninstalled machine. -/
theorem c1_witness : mainRun wEmpty false Cmd.ps = ([Action.print notInstalledMsg], 1) :=
  c1_theorem wEmpty false Cmd.ps rfl rfl rfl

/-- Counterexample to C1 as stated: `docker_clean` on an uninstalled
machine with one container does not print the install directive and does
perform a side-effecting action (a container removal), though it exits 1. -/
theorem c1_counterexample :
    mainRun wDockerClean false Cmd.docker_clean = ([Action.dockerRm "c1"], 1) ∧
    hasSideEffect (mainRun wDockerClean false Cmd.docker_clean).1 = true := by
  constructor <;> decide

/-- Claim C2, amended: when `install` runs in the Uninstalled state and a
required host port is already bound (the port scan finds an open port
`p`), the process exits 1 before any clone, pull, config copy, symlink or
container-engine action — but the default settings file has already been
written by then and is not removed, so a settings file does exist
afterwards (the persisted settings store is not left as it was). -/
theorem c2_theorem (w : World) (nP : Bool) (cfg br mi : String) (ssh nb : Bool) (p : Nat)
    (h1 : w.configExists = false)
    (h2 : (HOST_PORTS_USED cfg).find? (fun q => is_port_open w q) = some p) :
    mainRun w nP (Cmd.install cfg br ssh mi nb) =
      ([Action.writeSettings br cfg, Action.print (portFailMsg p)], 1) ∧
    settingsFileAfter w (mainRun w nP (Cmd.install cfg br ssh mi nb)).1 = true := by
  have hm : mainRun w nP (Cmd.install cfg br ssh mi nb) =
      ([Action.writeSettings br cfg, Action.print (portFailMsg p)], 1) := by
    simp [mainRun, Cmd.isDockerClean, Cmd.isInstall, h1, installRun, h2]
  refine ⟨hm, ?_⟩
  rw [hm]
  simp [settingsFileAfter]

/-- Witness for C2 (amended form): install of the `full` profile with
port 8332 bound on loopback. -/
theorem c2_witness :
    mainRun wBusyPort false (Cmd.install "full" "develop" true "0.0.0.0" true) =
      ([Action.writeSettings "develop" "full", Action.print (portFailMsg 8332)], 1) ∧
    settingsFileAfter wBusyPort
      (mainRun wBusyPort false (Cmd.install "full" "develop" true "0.0.0.0" true)).1 = true :=
  c2_theorem wBusyPort false "full" "develop" "0.0.0.0" true true 8332 rfl (by decide)

/-- Counterexample to C2 as stated: install of `base` with port 8332
bound exits 1, but the trace contains the settings write and the
settings file exists afterwards — not "no settings file exists
afterwards". -/
theorem c2_counterexample :
    mainRun wBusyPort false (Cmd.install "base" "master" false "127.0.0.1" false) =
      ([Action.writeSettings "master" "base", Action.print (portFailMsg 8332)], 1) ∧
    settingsFileAfter wBusyPort
      (mainRun wBusyPort false (Cmd.install "base" "master" false "127.0.0.1" false)).1 = true := by
  constructor <;> decide

/-- Claim C3, amended: `update` with an explicit service list other than
the single empty-string argument, containing a name outside the update
allow-list, prints only the rejection message for the first invalid name
and exits 1 — no repository operation (branch read, pull, egg cleanup)
and no container restart is performed.  The list consisting of exactly
one empty string is the exception: the validation guard compares against
it and skips validation, so that request is processed, not rejected. -/
theorem c3_theorem (w : World) (nP nr : Bool) (svcs : List String) (s0 : String)
    (h1 : w.configExists = true) (h2 : svcs ≠ [""]) (h3 : s0 ∈ svcs)
    (h4 : s0 ∉ UPDATE_CHOICES) :
    mainRun w nP (Cmd.update nr svcs) =
      ([Action.print ("Invalid service: " ++ (firstInvalid svcs).getD s0)], 1) := by
  obtain ⟨bad, hbad⟩ :=
    @find?_isSome_of String (fun s => decide (s ∉ UPDATE_CHOICES)) svcs s0 h3
      (decide_eq_true h4)
  have hfi : firstInvalid svcs = some bad := hbad
  simp [mainRun, Cmd.isDockerClean, Cmd.isInstall, h1, updateRun, h2, hfi]

/-- Witness for C3: updating the unknown service "bogus". -/
theorem c3_witness :
    mainRun wInstalled false (Cmd.update false ["bogus"]) =
      ([Action.print ("Invalid service: " ++ (firstInvalid ["bogus"]).getD "bogus")], 1) :=
  c3_theorem wInstalled false false ["bogus"] "bogus" rfl (by decide) (by decide) (by decide)

/-- Counterexample to C3 as stated: the explicit service list consisting
of one empty-string argument contains a name outside the allow-list (the
first invalid entry found is the empty name), yet the request is not
rejected: the `args.services != [empty]` guard skips validation, the
update loop processes the empty name (its repository directory is absent
in this world, so the pull is skipped) and a container restart compose
invocation is issued, exiting 0 — not exit 1 before any restart. -/
theorem c3_counterexample :
    firstInvalid [""] = some "" ∧
    mainRun wInstalled false (Cmd.update false [""]) =
      ([Action.composeCmd ("restart " ++ "")], 0) := by
  constructor <;> decide

/-- Claim C4: for any requested service list of valid update choices, the
git pull in any given repository directory happens at most once per
invocation; and in the concrete run requesting both `counterparty` and
`counterparty-testnet`, the pull in each of the two counterparty
repositories happens exactly once, not twice. -/
theorem c4_theorem :
    (∀ (w : World) (nP nr : Bool) (svcs : List String) (p : String),
      (∀ s ∈ svcs, s ∈ UPDATE_CHOICES) →
      countBy (isPullAt p) (mainRun w nP (Cmd.update nr svcs)).1 ≤ 1) ∧
    countBy (isPullAt (pathOfDir "counterparty-lib"))
      (mainRun wRepos false (Cmd.update false ["counterparty", "counterparty-testnet"])).1 = 1 ∧
    countBy (isPullAt (pathOfDir "counterparty-cli"))
      (mainRun wRepos false (Cmd.update false ["counterparty", "counterparty-testnet"])).1 = 1 := by
  refine ⟨?_, by decide, by decide⟩
  intro w nP nr svcs p hv
  by_cases h1 : w.configExists = true
  · have hu := updateRun_pull_count w nr svcs p hv
    simpa [mainRun, Cmd.isDockerClean, Cmd.isInstall, h1] using hu
  · have h1f : w.configExists = false := by
      cases hw : w.configExists
      · rfl
      · exact absurd hw h1
    simp [mainRun, Cmd.isDockerClean, Cmd.isInstall, h1f, countBy, isPullAt]

/-- Witness for C4: the at-most-once bound at the concrete
both-variants invocation. -/
theorem c4_witness :
    countBy (isPullAt (pathOfDir "counterparty-lib"))
      (mainRun wRepos false (Cmd.update false ["counterparty", "counterparty-testnet"])).1 ≤ 1 :=
  c4_theorem.1 wRepos false false ["counterparty", "counterparty-testnet"]
    (pathOfDir "counterparty-lib") (by decide)

/-- Claim C5: install of the `base` profile with host port 8332 already
bound exits 1 with no repository clone and no container-engine
(docker-compose) invocation in the trace. -/
theorem c5_theorem (w : World) (nP : Bool) (br mi : String) (ssh nb : Bool)
    (h1 : w.configExists = false) (h2 : is_port_open w 8332 = true) :
    mainRun w nP (Cmd.install "base" br ssh mi nb) =
      ([Action.writeSettings br "base", Action.print (portFailMsg 8332)], 1) ∧
    hasClone (mainRun w nP (Cmd.install "base" br ssh mi nb)).1 = false ∧
    hasCompose (mainRun w nP (Cmd.install "base" br ssh mi nb)).1 = false := by
  have hf : (HOST_PORTS_USED "base").find? (fun q => is_port_open w q) = some 8332 := by
    simp [HOST_PORTS_USED, List.find?, h2]
  have hm : mainRun w nP (Cmd.install "base" br ssh mi nb) =
      ([Action.writeSettings br "base", Action.print (portFailMsg 8332)], 1) := by
    simp [mainRun, Cmd.isDockerClean, Cmd.isInstall, h1, installRun, hf]
  refine ⟨hm, ?_, ?_⟩ <;>
    simp [hm, hasClone, hasCompose, Action.isClone, Action.isCompose]

/-- Witness for C5: the concrete busy-port world. -/
theorem c5_witness :
    mainRun wBusyPort false (Cmd.install "base" "master" false "127.0.0.1" false) =
      ([Action.writeSettings "master" "base", Action.print (portFailMsg 8332)], 1) ∧
    hasClone (mainRun wBusyPort false (Cmd.install "base" "master" false "127.0.0.1" false)).1 = false ∧
    hasCompose (mainRun wBusyPort false (Cmd.install "base" "master" false "127.0.0.1" false)).1 = false :=
  c5_theorem wBusyPort false "master" "127.0.0.1" false false rfl (by decide)

/-- Claim C6: for a config pair of the active profile whose template and
active file both exist, `config_check` prints the OK line for the pair
exactly when the two files agree after dropping blank lines and lines
whose first non-whitespace character is a hash; and `config_check` only
ever prints — it performs no write or other side effect. -/
theorem c6_theorem (w : World) (bc d ff tf : String)
    (_h0 : (d, ff, tf) ∈ CONFIGCHECK_FILES bc)
    (h1 : w.pathExists (cfgPath d ff) = true)
    (h2 : w.pathExists (cfgPath d tf) = true) :
    (configCheckPair w (d, ff, tf) = [okReport d tf] ↔
      stripLines (w.fileLines (cfgPath d ff)) = stripLines (w.fileLines (cfgPath d tf))) ∧
    (∀ a ∈ config_check w bc, a.isPrint = true) := by
  constructor
  · have key : configCheckPair w (d, ff, tf) =
        (if stripLines (w.fileLines (cfgPath d ff)) = stripLines (w.fileLines (cfgPath d tf))
         then [okReport d tf]
         else [Action.print ("Found these differences in the file " ++ cfgPath d tf ++ ":" ++ NL),
               Action.print (unifiedDiffStr ff tf (w.mtimeOf (cfgPath d ff))
                 (w.mtimeOf (cfgPath d tf))
                 (stripLines (w.fileLines (cfgPath d ff)))
                 (stripLines (w.fileLines (cfgPath d tf))))]) := by
      rw [configCheckPair]
      by_cases heq :
          stripLines (w.fileLines (cfgPath d ff)) = stripLines (w.fileLines (cfgPath d tf))
      · have hds := (unifiedDiffStr_eq_empty_iff ff tf (w.mtimeOf (cfgPath d ff))
          (w.mtimeOf (cfgPath d tf)) _ _).mpr heq
        rw [if_pos heq]
        simp [h1, h2, hds]
      · have hds : unifiedDiffStr ff tf (w.mtimeOf (cfgPath d ff)) (w.mtimeOf (cfgPath d tf))
            (stripLines (w.fileLines (cfgPath d ff)))
            (stripLines (w.fileLines (cfgPath d tf))) ≠ "" :=
          fun he => heq ((unifiedDiffStr_eq_empty_iff _ _ _ _ _ _).mp he)
        rw [if_neg heq]
        simp [h1, h2, hds, bne_iff_ne]
    rw [key]
    by_cases heq :
        stripLines (w.fileLines (cfgPath d ff)) = stripLines (w.fileLines (cfgPath d tf))
    · simp [heq]
    · simp [heq, okReport]
  · intro a ha
    rw [config_check] at ha
    obtain ⟨t, _, hat⟩ := (mem_concatMap _ _ _).mp ha
    exact configCheckPair_all_print w t a hat

/-- Witness for C6: a template and active file differing only in a
comment line and a blank line report OK. -/
theorem c6_witness :
    configCheckPair wConfigs ("bitcoin", "bitcoin.conf.default", "bitcoin.conf") =
      [okReport "bitcoin" "bitcoin.conf"] :=
  (c6_theorem wConfigs "base" "bitcoin" "bitcoin.conf.default" "bitcoin.conf"
    (by decide) (by decide) (by decide)).1.mpr (by decide)

/-- Claim C7: during config materialization, no copy ever targets an
active file that already exists; and every template whose active
counterpart is absent is copied over. -/
theorem c7_theorem (w : World) (f : String) (h : w.pathExists f = true) :
    hasCopyTo (initializeConfigs w) f = false ∧
    (∀ dc ∈ w.defaultConfigGlob, w.pathExists (activeOf dc) = false →
      Action.copyFile dc (activeOf dc) ∈ initializeConfigs w) := by
  constructor
  · apply any_false_of
    intro a ha
    rw [initializeConfigs] at ha
    obtain ⟨dc, _, hadc⟩ := (mem_concatMap _ _ _).mp ha
    by_cases hac : w.pathExists (activeOf dc) = true
    · simp [hac] at hadc
    · have hacf : w.pathExists (activeOf dc) = false := by
        cases hw : w.pathExists (activeOf dc)
        · rfl
        · exact absurd hw hac
      simp only [hacf, Bool.false_eq_true, if_false, List.append_assoc, List.cons_append,
        List.nil_append, List.mem_cons] at hadc
      rcases hadc with rfl | rfl | hrest
      · rfl
      · have hne : activeOf dc ≠ f := by
          intro he
          rw [he] at hacf
          rw [h] at hacf
          exact absurd hacf (by decide)
        simp [isCopyTo, hne]
      · cases hwin : w.isWindows
        · rw [hwin] at hrest
          simp at hrest
          subst hrest
          rfl
        · rw [hwin] at hrest
          simp at hrest
  · intro dc hdc hac
    rw [initializeConfigs]
    apply (mem_concatMap _ _ _).mpr
    exact ⟨dc, hdc, by simp [hac]⟩

/-- Witness for C7: the existing bitcoin active config is never a copy
target, while the absent counterparty active config is generated. -/
theorem c7_witness :
    hasCopyTo (initializeConfigs wTemplates) "/btc/config/bitcoin/bitcoin.conf" = false ∧
    Action.copyFile "/btc/config/counterparty/server.conf.default"
      (activeOf "/btc/config/counterparty/server.conf.default") ∈ initializeConfigs wTemplates :=
  ⟨(c7_theorem wTemplates "/btc/config/bitcoin/bitcoin.conf" (by decide)).1,
   (c7_theorem wTemplates "/btc/config/bitcoin/bitcoin.conf" (by decide)).2
     "/btc/config/counterparty/server.conf.default" (by decide) (by decide)⟩

/-- Claim C8, amended: for a service in the shell allow-list, `shell`
execs an interactive shell when the container is running; when the
container exists but is not running it falls back to a transient
throwaway container (`run --no-deps --rm --entrypoint bash`); but when
the container does not exist at all (docker inspect fails), the command
aborts with exit 1 instead of falling back. -/
theorem c8_theorem (w : World) (nP : Bool) (s : String)
    (h1 : w.configExists = true) (_h2 : s ∈ SHELL_CHOICES) :
    (w.containerInspect s = some "true" →
      mainRun w nP (Cmd.shell s) = ([Action.dockerShell s], 0)) ∧
    (∀ out, w.containerInspect s = some out → out ≠ "true" →
      mainRun w nP (Cmd.shell s) =
        ([Action.print shellTransientMsg,
          Action.composeCmd ("run --no-deps --rm --entrypoint bash " ++ s)], 0)) ∧
    (w.containerInspect s = none →
      mainRun w nP (Cmd.shell s) = ([Action.print (containerNotExistMsg s)], 1)) := by
  refine ⟨?_, ?_, ?_⟩
  · intro hi
    simp [mainRun, Cmd.isDockerClean, Cmd.isInstall, h1, shellRun, is_container_running, hi]
  · intro out hi hne
    have hb : (out == "true") = false := by simp [hne]
    simp [mainRun, Cmd.isDockerClean, Cmd.isInstall, h1, shellRun, is_container_running, hi, hb]
  · intro hi
    simp [mainRun, Cmd.isDockerClean, Cmd.isInstall, h1, shellRun, is_container_running, hi]

/-- Witness for C8: a stopped-but-existing counterparty container gets
the transient fallback container. -/
theorem c8_witness :
    mainRun wShellDown false (Cmd.shell "counterparty") =
      ([Action.print shellTransientMsg,
        Action.composeCmd ("run --no-deps --rm --entrypoint bash " ++ "counterparty")], 0) :=
  (c8_theorem wShellDown false "counterparty" rfl (by decide)).2.1 "false" (by decide) (by decide)

/-- Counterexample to C8 as stated: when the container does not exist
(it is certainly not running), `shell` exits 1 with no fallback compose
run instead of creating a transient container. -/
theorem c8_counterexample :
    mainRun wInstalled false (Cmd.shell "counterparty") =
      ([Action.print (containerNotExistMsg "counterparty")], 1) ∧
    hasCompose (mainRun wInstalled false (Cmd.shell "counterparty")).1 = false := by
  constructor <;> decide

/-- Claim C9: `rollback B S` issues exactly two orchestration-engine
invocations, in order: a stop of `S`, then a one-shot run of `S`
carrying COMMAND=(rollback B). -/
theorem c9_theorem (w : World) (nP : Bool) (b s : String)
    (h1 : w.configExists = true) (_h2 : s ∈ ROLLBACK_CHOICES) :
    mainRun w nP (Cmd.rollback b s) =
      ([Action.composeCmd ("stop " ++ s),
        Action.composeCmd ("run -e COMMAND=" ++ SQ ++ "rollback " ++ b ++ SQ ++ " " ++ s)], 0) := by
  simp [mainRun, Cmd.isDockerClean, Cmd.isInstall, h1]

/-- Witness for C9: rollback 450000 counterparty. -/
theorem c9_witness :
    mainRun wInstalled false (Cmd.rollback "450000" "counterparty") =
      ([Action.composeCmd ("stop " ++ "counterparty"),
        Action.composeCmd ("run -e COMMAND=" ++ SQ ++ "rollback " ++ "450000" ++ SQ ++ " " ++
          "counterparty")], 0) :=
  c9_theorem wInstalled false "450000" "counterparty" rfl (by decide)

/-- Claim C10: the port pre-flight probe is exactly a TCP connect to
127.0.0.1, and an uninstalled install exits 1 if and only if some
required profile port accepts a loopback connection — so a listener
bound only to a non-loopback interface does not block installation. -/
theorem c10_theorem (w : World) (nP : Bool) (cfg br mi : String) (ssh nb : Bool) (p : Nat)
    (h1 : w.configExists = false) :
    is_port_open w p = w.connectEx "127.0.0.1" p ∧
    ((mainRun w nP (Cmd.install cfg br ssh mi nb)).2 = 1 ↔
      ∃ q ∈ HOST_PORTS_USED cfg, is_port_open w q = true) := by
  refine ⟨rfl, ?_⟩
  cases hf : (HOST_PORTS_USED cfg).find? (fun q => is_port_open w q) with
  | some q =>
    obtain ⟨hm, hpq⟩ := find?_some_mem hf
    have hexit : (mainRun w nP (Cmd.install cfg br ssh mi nb)).2 = 1 := by
      simp [mainRun, Cmd.isDockerClean, Cmd.isInstall, h1, installRun, hf]
    rw [hexit]
    simp only [true_iff]
    exact ⟨q, hm, hpq⟩
  | none =>
    have hall := find?_none_all hf
    have hexit : (mainRun w nP (Cmd.install cfg br ssh mi nb)).2 = 0 := by
      simp [mainRun, Cmd.isDockerClean, Cmd.isInstall, h1, installRun, hf]
    rw [hexit]
    constructor
    · intro h
      exact absurd h (by decide)
    · rintro ⟨q, hq, hpq⟩
      have hfq : is_port_open w q = false := hall q hq
      rw [hfq] at hpq
      exact absurd hpq (by decide)

/-- Witness for C10: the busy-port world, whose loopback listener on
8332 makes the base install exit 1. -/
theorem c10_witness :
    is_port_open wBusyPort 8332 = wBusyPort.connectEx "127.0.0.1" 8332 ∧
    (mainRun wBusyPort false (Cmd.install "base" "master" false "127.0.0.1" false)).2 = 1 :=
  ⟨(c10_theorem wBusyPort false "base" "master" "127.0.0.1" false false 8332 rfl).1,
   (c10_theorem wBusyPort false "base" "master" "127.0.0.1" false false 8332 rfl).2.mpr
     ⟨8332, by decide, by decide⟩⟩

end Btc
